import Mathlib

/-!
Shallow embedding of the chplvis trace-aggregation data model
(tools/chplvis/DataModel.h) and proofs about its query surface.

Modelling conventions:
- C++ raw-array (pointer) reads become list lookups `l[i]?`; an accessor
  returns `Option R`, where `none` records that the C++ code performed an
  out-of-bounds / null-dereference (undefined-behaviour) access, and
  `some r` records that it returned the value `r`.  A returned NULL
  `tagData*` pointer is `some none` at result type `Option (Option tagData)`.
- `double` fields are modelled as `Int`: no code relevant to the stated
  properties performs floating-point arithmetic on them (they are only
  zero-initialized, stored and copied verbatim).
- Heap pointers to event records are modelled as indices into the global
  event list (`Option Nat`, `none` for NULL).
- Members the DataModel constructor leaves unassigned (`fileTbl`,
  `fileTblSize`) are parameters of `DataModel.fresh`, standing for the
  indeterminate values they hold in C++.
-/

namespace ChplVis

/-- Embeds `struct commData` (DataModel.h:44-52): one cell of the per-tag
communication matrix, five counters. -/
structure commData where
  numComms : Int
  numGets : Int
  numPuts : Int
  numForks : Int
  commSize : Int
deriving DecidableEq

/-- Embeds the `commData()` default constructor (DataModel.h:51): all five
counters start at zero. -/
def commData.init : commData := ⟨0, 0, 0, 0, 0⟩

/-- Modelled from the spec: the decoded trace Event record (`Event.h` is the
external Event Decoder, not part of this core).  Per spec sections 2 and 6,
each event carries a locale id, a per-locale sequence number and a clock
time; that is all the merge order and `start_clock` depend on. -/
structure Event where
  locale : Int
  seq : Int
  clock : Int
deriving DecidableEq

/-- Embeds `struct taskData` (DataModel.h:55-65).  The event pointers
`taskRec`/`beginRec`/`endRec` are optional indices into the global event
list; `commList` likewise holds indices.  The constructor leaves `taskClock`
uninitialized in the source, so `taskData.init` takes it as a parameter. -/
structure taskData where
  taskRec : Option Nat
  beginRec : Option Nat
  endRec : Option Nat
  endTagNo : Int
  taskClock : Int
  commList : List Nat
  commSum : commData
deriving DecidableEq

/-- Embeds the `taskData()` constructor (DataModel.h:64): NULL records,
`endTagNo = -2`, empty comm list, zero comm sums. -/
def taskData.init (junkClock : Int) : taskData :=
  ⟨none, none, none, -2, junkClock, [], commData.init⟩

/-- Embeds `struct localeData` (DataModel.h:68-86): per-(tag,locale)
aggregate statistics plus the task map. -/
structure localeData where
  userCpu : Int
  sysCpu : Int
  Cpu : Int
  refUserCpu : Int
  refSysCpu : Int
  clockTime : Int
  refTime : Int
  maxTaskClock : Int
  numTasks : Int
  runConc : Int
  maxConc : Int
  tasks : List (Int × taskData)
deriving DecidableEq

/-- Embeds the `localeData()` constructor (DataModel.h:83-85): every numeric
field zero, empty task map. -/
def localeData.init : localeData := ⟨0, 0, 0, 0, 0, 0, 0, 0, 0, 0, 0, []⟩

/-- Embeds `struct filename` (DataModel.h:89-92). -/
structure filename where
  name : String
  rel2Home : Bool
deriving DecidableEq

/-- Embeds `DataModel::tagData` (DataModel.h:169-205): per-tag data with a
`localeData` per locale and a numLocales x numLocales communication matrix
(`comms`, row = source locale, column = destination locale).  The private
`firstTag` iterator is omitted (it is default-constructed singular and no
accessor reads it). -/
structure tagData where
  numLocales : Int
  name : String
  locales : List localeData
  comms : List (List commData)
  maxCpu : Int
  maxClock : Int
  maxTasks : Int
  maxConc : Int
  maxComms : Int
  maxSize : Int
deriving DecidableEq

/-- Embeds the `tagData(long numLoc)` constructor (DataModel.h:184-190):
`numLocales` locale slots, a freshly zeroed numLoc x numLoc matrix of
`commData`, empty name, zero maxima. -/
def tagData.init (numLoc : Nat) : tagData :=
  ⟨(numLoc : Int), "", List.replicate numLoc localeData.init,
   List.replicate numLoc (List.replicate numLoc commData.init),
   0, 0, 0, 0, 0, 0⟩

/-- Embeds `enum Tl_Kind` (DataModel.h:119). -/
inductive TlKind
  | Tl_Tag
  | Tl_Begin
  | Tl_End
deriving DecidableEq

/-- Embeds the `DataModel` class state (DataModel.h:109-288).  `tagList` and
`utagList` are the arrays of `tagData*` (a NULL array is `[]`); `name2tag`
is the `std::map<const char*, int>` as an association list; `taskTimeline`
is the per-locale timeline array (`none` for NULL); `tagNames` is the
`std::vector<const char*>` (a NULL entry is `none`).  Members no embedded
operation reads (`mainTID`, `mainTask`, `strDB`, `funcTbl`, `funcTblSize`,
`curEvent`) are omitted. -/
structure DataModel where
  fileTbl : List filename
  fileTblSize : Int
  numLocales : Int
  numTags : Int
  tagList : List tagData
  uniqueTags : Bool
  name2tag : List (String × Int)
  utagList : List tagData
  theEvents : List Event
  tagNames : List (Option String)
  taskTimeline : Option (List (List (TlKind × Int)))

/-- Embeds `static const int TagALL = -2` (DataModel.h:165). -/
def DataModel.TagALL : Int := -2

/-- Embeds `static const int TagStart = -1` (DataModel.h:165). -/
def DataModel.TagStart : Int := -1

/-- Embeds the `DataModel()` constructor (DataModel.h:250-259): `numLocales
= -1`, `numTags = 0`, NULL `tagList`/`utagList`/`taskTimeline`, `uniqueTags
= true`, empty event list and `name2tag` map, `tagNames.resize(64)` filling
with NULL.  `fileTbl`/`fileTblSize` are not assigned by the constructor and
stay indeterminate, hence the parameters. -/
def DataModel.fresh (junkFileTbl : List filename) (junkFileTblSize : Int) : DataModel :=
  ⟨junkFileTbl, junkFileTblSize, -1, 0, [], true, [], [], [],
   List.replicate 64 none, none⟩

/-- Embeds `DataModel::hasUniqueTags` (DataModel.h:210). -/
def DataModel.hasUniqueTags (m : DataModel) : Bool := m.uniqueTags

/-- Embeds `DataModel::NumTags` (DataModel.h:212). -/
def DataModel.NumTags (m : DataModel) : Int := m.numTags

/-- Embeds `DataModel::NumUTags` (DataModel.h:214): `name2tag.size()`. -/
def DataModel.NumUTags (m : DataModel) : Int := (m.name2tag.length : Int)

/-- Embeds `DataModel::NumLocales` (DataModel.h:286). -/
def DataModel.NumLocales (m : DataModel) : Int := m.numLocales

/-- Embeds `DataModel::getTagData` (DataModel.h:216-220): if `tagno <
TagALL` or `tagno >= numTags`, return NULL (`some none`); otherwise read
`tagList[tagno - TagALL]` (an out-of-bounds read is `none`). -/
def DataModel.getTagData (m : DataModel) (tagno : Int) : Option (Option tagData) :=
  if tagno < DataModel.TagALL ∨ m.numTags ≤ tagno then some none
  else (m.tagList[(tagno - DataModel.TagALL).toNat]?).map some

/-- Embeds `DataModel::getUTagData` (DataModel.h:222-230): `TagALL` and
`TagStart` are served from `tagList[0]` and `tagList[1]`; otherwise if
`uniqueTags` holds or `tagno` is outside `[0, name2tag.size())`, return
NULL; otherwise read `utagList[tagno]`. -/
def DataModel.getUTagData (m : DataModel) (tagno : Int) : Option (Option tagData) :=
  if tagno = DataModel.TagALL then (m.tagList[0]?).map some
  else if tagno = DataModel.TagStart then (m.tagList[1]?).map some
  else if m.uniqueTags = true ∨ (m.name2tag.length : Int) ≤ tagno ∨ tagno < 0 then some none
  else (m.utagList[tagno.toNat]?).map some

/-- Embeds `DataModel::start_clock` (DataModel.h:234-236):
`(*theEvents.begin())->clock_time()`; dereferencing `begin()` of an empty
list is undefined behaviour, modelled as `none`. -/
def DataModel.start_clock (m : DataModel) : Option Int :=
  m.theEvents.head?.map Event.clock

/-- Embeds `DataModel::fileName` (DataModel.h:238-241): the stored name for
`0 <= fileNo < fileTblSize`, the sentinel string otherwise. -/
def DataModel.fileName (m : DataModel) (fileNo : Int) : Option String :=
  if 0 ≤ fileNo ∧ fileNo < m.fileTblSize then
    (m.fileTbl[fileNo.toNat]?).map (fun f => f.name)
  else some "<unknown>"

/-- Embeds `DataModel::fileIsRel2Home` (DataModel.h:243-246). -/
def DataModel.fileIsRel2Home (m : DataModel) (fileNo : Int) : Option Bool :=
  if 0 ≤ fileNo ∧ fileNo < m.fileTblSize then
    (m.fileTbl[fileNo.toNat]?).map (fun f => f.rel2Home)
  else some false

/-- Modelled from the spec: the ordering key comparison of the Stream Merger
(spec section 4.2; `DataModel::LoadData` / `LoadFile` are declared at
DataModel.h:155 and 282 but implemented outside this header).  Strict
lexicographic order: clock time first, then locale id, then per-locale
sequence number. -/
def keyLT (a b : Event) : Prop :=
  a.clock < b.clock ∨
    (a.clock = b.clock ∧
      (a.locale < b.locale ∨ (a.locale = b.locale ∧ a.seq < b.seq)))

/-- Modelled from the spec: two events have the same merge key when clock
time, locale id and sequence number all coincide. -/
def keyEq (a b : Event) : Prop :=
  a.clock = b.clock ∧ a.locale = b.locale ∧ a.seq = b.seq

/-- Modelled from the spec: the non-strict merge order used by the Stream
Merger (spec section 4.2). -/
def keyLE (a b : Event) : Prop := keyLT a b ∨ keyEq a b

instance : DecidableRel keyLT := fun a b => by
  unfold keyLT; exact inferInstance

instance : DecidableRel keyEq := fun a b => by
  unfold keyEq; exact inferInstance

instance : DecidableRel keyLE := fun a b => by
  unfold keyLE; exact inferInstance

instance : IsTotal Event keyLE :=
  ⟨fun a b => by unfold keyLE keyLT keyEq; omega⟩

instance : IsTrans Event keyLE :=
  ⟨fun a b c hab hbc => by unfold keyLE keyLT keyEq at hab hbc ⊢; omega⟩

instance : IsAntisymm Event keyLT :=
  ⟨fun a b hab hba => absurd (And.intro hab hba)
    (by unfold keyLT; omega)⟩

/-- Modelled from the spec: the Stream Merger (spec section 4.2), the core
of `DataModel::LoadData` (declared DataModel.h:282, implemented outside this
header).  It takes the per-locale decoded event lists and produces one
global list ordered primarily by clock time and, for equal clock times, by
locale id then local sequence number. -/
def loadMerge (files : List (List Event)) : List Event :=
  List.insertionSort keyLE files.flatten

/-- Concrete per-tag entry used to exercise the accessors on explicit models. -/
def td0 : tagData := tagData.init 0

/-- Concrete event on locale 0, sequence 0, clock 0. -/
def ev0 : Event := ⟨0, 0, 0⟩

/-- Concrete event on locale 1, sequence 0, clock 1. -/
def ev1 : Event := ⟨1, 0, 1⟩

/-- Concrete loaded model with one real tag: the tag array holds the
TagALL, TagStart and tag-0 entries (numTags + 2 = 3 entries). -/
def M1 : DataModel :=
  ⟨[], 0, 0, 1, [td0, td0, td0], true, [], [], [], [], none⟩

/-- Concrete model with folding disabled: one literal tag occurrence in
`utagList`, matching one `name2tag` binding. -/
def M2 : DataModel :=
  ⟨[], 0, 0, 0, [], false, [("a", 0)], [td0], [], [], none⟩

/-- Concrete model whose merged event list holds two time-ordered events. -/
def M3 : DataModel :=
  ⟨[], 0, 2, 0, [], true, [], [], [ev0, ev1], [], none⟩

/-- Concrete model with a one-entry file table. -/
def M4 : DataModel :=
  ⟨[⟨"a", true⟩], 1, 0, 0, [], true, [], [], [], [], none⟩

/-- Helper: `getUTagData` at `TagALL` always reads `tagList[0]`. -/
theorem getUTagData_at_TagALL (m : DataModel) :
    m.getUTagData DataModel.TagALL = (m.tagList[0]?).map some := by
  unfold DataModel.getUTagData
  rw [if_pos rfl]

/-- Helper: `getUTagData` at `TagStart` always reads `tagList[1]`. -/
theorem getUTagData_at_TagStart (m : DataModel) :
    m.getUTagData DataModel.TagStart = (m.tagList[1]?).map some := by
  unfold DataModel.getUTagData
  rw [if_neg (by decide : ¬ (DataModel.TagStart = DataModel.TagALL)), if_pos rfl]

/-- Helper: for a non-sentinel id with folding disabled and the id inside
`[0, name2tag.size())`, `getUTagData` reads `utagList[tagno]`. -/
theorem getUTagData_eq_utag_read (m : DataModel) (i : Int)
    (hf : m.uniqueTags = false) (h0 : 0 ≤ i) (h2 : i < (m.name2tag.length : Int)) :
    m.getUTagData i = (m.utagList[i.toNat]?).map some := by
  unfold DataModel.getUTagData
  rw [if_neg (by show ¬ (i = -2); omega), if_neg (by show ¬ (i = -1); omega),
      if_neg (by rw [hf]; push_neg; exact ⟨by simp, by omega, by omega⟩)]

/-- Helper: for a non-sentinel id, when folding is in effect or the id lies
outside `[0, name2tag.size())`, `getUTagData` returns NULL. -/
theorem getUTagData_eq_null (m : DataModel) (i : Int)
    (hne2 : i ≠ DataModel.TagALL) (hne1 : i ≠ DataModel.TagStart)
    (hc : m.uniqueTags = true ∨ (m.name2tag.length : Int) ≤ i ∨ i < 0) :
    m.getUTagData i = some none := by
  unfold DataModel.getUTagData
  rw [if_neg hne2, if_neg hne1, if_pos hc]

/-- C1: for every integer tagno, getTagData returns NULL whenever tagno <
TagALL or tagno >= numTags; under the invariant that the tag array holds
numTags + 2 entries it never reads out of bounds, and every in-range
logical id returns the entry stored at array position tagno + 2. -/
theorem getTagData_range_checked (m : DataModel)
    (hn : 0 ≤ m.numTags) (hlen : m.tagList.length = m.numTags.toNat + 2)
    (tagno : Int) :
    ((tagno < DataModel.TagALL ∨ m.numTags ≤ tagno) →
       m.getTagData tagno = some none) ∧
    (DataModel.TagALL ≤ tagno → tagno < m.numTags →
       ∃ td, m.tagList[(tagno + 2).toNat]? = some td ∧
         m.getTagData tagno = some (some td)) ∧
    m.getTagData tagno ≠ none := by
  have hA : DataModel.TagALL = -2 := rfl
  refine ⟨fun h => ?_, fun h1 h2 => ?_, ?_⟩
  · unfold DataModel.getTagData
    rw [if_pos h]
  · unfold DataModel.getTagData
    rw [if_neg (by push_neg; exact ⟨h1, h2⟩)]
    rw [hA] at h1
    have hidx : (tagno - DataModel.TagALL).toNat = (tagno + 2).toNat := by
      rw [hA]; omega
    have hb : (tagno + 2).toNat < m.tagList.length := by
      rw [hlen]; omega
    rw [hidx, List.getElem?_eq_getElem hb]
    exact ⟨m.tagList[(tagno + 2).toNat], rfl, rfl⟩
  · unfold DataModel.getTagData
    by_cases hc : tagno < DataModel.TagALL ∨ m.numTags ≤ tagno
    · rw [if_pos hc]; simp
    · rw [if_neg hc]
      push_neg at hc
      rw [hA] at hc
      have hb : (tagno - DataModel.TagALL).toNat < m.tagList.length := by
        rw [hA, hlen]; omega
      rw [List.getElem?_eq_getElem hb]
      simp

/-- C1 witness: on the concrete loaded model M1, the invariant holds and an
out-of-range id (5) yields the NULL answer. -/
theorem getTagData_range_checked_witness :
    (0 ≤ M1.numTags ∧ M1.tagList.length = M1.numTags.toNat + 2) ∧
      M1.getTagData 5 = some none :=
  ⟨⟨by decide, by decide⟩,
   (getTagData_range_checked M1 (by decide) (by decide) 5).1 (Or.inr (by decide))⟩

/-- C2 counterexample: on a freshly constructed, never-loaded DataModel,
getTagData does not return a no-such-entry value at argument TagALL: the
range guard admits TagALL, and the code then reads element 0 of the NULL
tag array (modelled as `none`, an out-of-bounds access).  So not every
query accessor of a never-loaded model returns its no-such-entry value for
every argument. -/
theorem fresh_getTagData_TagALL_oob :
    (DataModel.fresh [] 0).getTagData DataModel.TagALL = none := by decide

/-- C2 amended: a failed load leaves the model as freshly constructed, and
on a freshly constructed DataModel the tag accessors return their
no-such-entry value for every non-sentinel argument; at the sentinel ids
TagALL and TagStart (and for start_clock on the empty event list) the code
instead performs an out-of-bounds access. -/
theorem fresh_accessors_unloaded (ft : List filename) (fs : Int) (tagno : Int)
    (h1 : tagno ≠ DataModel.TagALL) (h2 : tagno ≠ DataModel.TagStart) :
    (DataModel.fresh ft fs).getTagData tagno = some none ∧
    (DataModel.fresh ft fs).getUTagData tagno = some none ∧
    (DataModel.fresh ft fs).getTagData DataModel.TagALL = none ∧
    (DataModel.fresh ft fs).getUTagData DataModel.TagALL = none ∧
    (DataModel.fresh ft fs).start_clock = none := by
  have h1' : tagno ≠ -2 := h1
  have h2' : tagno ≠ -1 := h2
  refine ⟨?_, ?_, by rfl, by rfl, by rfl⟩
  · have hc : tagno < DataModel.TagALL ∨ (DataModel.fresh ft fs).numTags ≤ tagno := by
      show tagno < -2 ∨ (0 : Int) ≤ tagno
      omega
    unfold DataModel.getTagData
    rw [if_pos hc]
  · exact getUTagData_eq_null (DataModel.fresh ft fs) tagno h1 h2 (Or.inl rfl)

/-- C2 amended witness: at the concrete non-sentinel id 3, the fresh model
answers NULL from both tag accessors. -/
theorem fresh_accessors_unloaded_witness :
    ((3 : Int) ≠ DataModel.TagALL ∧ (3 : Int) ≠ DataModel.TagStart) ∧
      (DataModel.fresh [] 0).getTagData 3 = some none ∧
      (DataModel.fresh [] 0).getUTagData 3 = some none ∧
      (DataModel.fresh [] 0).getTagData DataModel.TagALL = none ∧
      (DataModel.fresh [] 0).getUTagData DataModel.TagALL = none ∧
      (DataModel.fresh [] 0).start_clock = none :=
  ⟨⟨by decide, by decide⟩,
   fresh_accessors_unloaded [] 0 3 (by decide) (by decide)⟩

/-- C3: when folding is in effect (uniqueTags true) getUTagData returns
NULL for every non-sentinel id; when folding is disabled, every id in
[0, literal-occurrence count) returns the entry stored in the separate
literal-occurrence list utagList — independent of the folded tag array,
whose contents may be replaced without changing the answer. -/
theorem getUTagData_folding (m : DataModel)
    (hu : m.utagList.length = m.name2tag.length) :
    (m.uniqueTags = true → ∀ t : Int, t ≠ DataModel.TagALL →
       t ≠ DataModel.TagStart → m.getUTagData t = some none) ∧
    (m.uniqueTags = false → ∀ i : Int, 0 ≤ i → i < (m.name2tag.length : Int) →
       ∃ td, m.utagList[i.toNat]? = some td ∧ m.getUTagData i = some (some td) ∧
         ∀ tl : List tagData,
           DataModel.getUTagData { m with tagList := tl } i = some (some td)) := by
  constructor
  · intro ht t hne2 hne1
    exact getUTagData_eq_null m t hne2 hne1 (Or.inl ht)
  · intro hf i h0 h2
    have hb : i.toNat < m.utagList.length := by rw [hu]; omega
    refine ⟨m.utagList[i.toNat], List.getElem?_eq_getElem hb, ?_, ?_⟩
    · rw [getUTagData_eq_utag_read m i hf h0 h2, List.getElem?_eq_getElem hb]
      rfl
    · intro tl
      have hr := getUTagData_eq_utag_read { m with tagList := tl } i hf h0 h2
      rw [hr]
      show (m.utagList[i.toNat]?).map some = some (some m.utagList[i.toNat])
      rw [List.getElem?_eq_getElem hb]
      rfl

/-- C3 witness: on the concrete unfolded model M2, id 0 is answered from
the literal-occurrence list, whatever the folded array holds. -/
theorem getUTagData_folding_witness :
    (M2.utagList.length = M2.name2tag.length ∧ M2.uniqueTags = false) ∧
      (∃ td, M2.utagList[(0 : Int).toNat]? = some td ∧
        M2.getUTagData 0 = some (some td) ∧
        ∀ tl : List tagData,
          DataModel.getUTagData { M2 with tagList := tl } 0 = some (some td)) :=
  ⟨⟨by decide, by decide⟩,
   (getUTagData_folding M2 (by decide)).2 (by decide) 0 (by decide) (by decide)⟩

/-- C6: with folding disabled, NumUTags equals the length of the
literal-occurrence list, and the non-sentinel ids on which getUTagData
yields an entry are exactly the integers in [0, NumUTags). -/
theorem NumUTags_counts_utag_entries (m : DataModel)
    (hu : m.utagList.length = m.name2tag.length) (hf : m.uniqueTags = false) :
    m.NumUTags = (m.utagList.length : Int) ∧
    ∀ i : Int, i ≠ DataModel.TagALL → i ≠ DataModel.TagStart →
      ((∃ td, m.getUTagData i = some (some td)) ↔ 0 ≤ i ∧ i < m.NumUTags) := by
  have hN : m.NumUTags = (m.name2tag.length : Int) := rfl
  constructor
  · rw [hN, hu]
  · intro i hne2 hne1
    constructor
    · rintro ⟨td, htd⟩
      by_contra hout
      rw [hN] at hout
      have hc : m.uniqueTags = true ∨ (m.name2tag.length : Int) ≤ i ∨ i < 0 := by
        right; omega
      rw [getUTagData_eq_null m i hne2 hne1 hc] at htd
      exact Option.noConfusion (Option.some.inj htd)
    · rintro ⟨h0, h2⟩
      rw [hN] at h2
      have hb : i.toNat < m.utagList.length := by rw [hu]; omega
      refine ⟨m.utagList[i.toNat], ?_⟩
      rw [getUTagData_eq_utag_read m i hf h0 h2, List.getElem?_eq_getElem hb]
      rfl

/-- C6 witness: on the concrete unfolded model M2 (one literal occurrence),
id 0 is addressable and the count matches. -/
theorem NumUTags_counts_utag_entries_witness :
    (M2.utagList.length = M2.name2tag.length ∧ M2.uniqueTags = false) ∧
      ((∃ td, M2.getUTagData 0 = some (some td)) ↔
        0 ≤ (0 : Int) ∧ (0 : Int) < M2.NumUTags) :=
  ⟨⟨by decide, by decide⟩,
   (NumUTags_counts_utag_entries M2 (by decide) (by decide)).2 0
     (by decide) (by decide)⟩

/-- Helper: a list sorted under the non-strict merge order whose elements
have pairwise distinct keys is sorted under the strict merge order. -/
theorem sorted_keyLT_of_distinct {l : List Event} (hs : l.Sorted keyLE)
    (hne : l.Pairwise fun a b => ¬ keyEq a b) : l.Pairwise keyLT :=
  List.Pairwise.imp (fun h => h.1.resolve_right h.2) (List.Pairwise.and hs hne)

/-- C4: the merged event list is ordered primarily by clock time with ties
broken by locale id then local sequence number, it is a permutation of the
decoded per-locale events, and — because events have pairwise distinct
(clock, locale, sequence) keys — any time-ordered merge of the same input
files equals loadMerge of those files, so repeated loads of equal inputs
produce equal models. -/
theorem loadMerge_deterministic (fs : List (List Event)) (l : List Event)
    (hkeys : fs.flatten.Pairwise fun a b => ¬ keyEq a b)
    (hperm : l.Perm fs.flatten) (hsort : l.Sorted keyLE) :
    l = loadMerge fs ∧ (loadMerge fs).Sorted keyLE ∧
      (loadMerge fs).Perm fs.flatten := by
  have hP : (loadMerge fs).Perm fs.flatten :=
    List.perm_insertionSort keyLE fs.flatten
  have hS : (loadMerge fs).Sorted keyLE :=
    List.sorted_insertionSort keyLE fs.flatten
  have hsymm : ∀ {x y : Event}, ¬ keyEq x y → ¬ keyEq y x := by
    intro x y h hk
    exact h ⟨hk.1.symm, hk.2.1.symm, hk.2.2.symm⟩
  have hkl : l.Pairwise fun a b => ¬ keyEq a b :=
    (List.Perm.pairwise_iff hsymm hperm).mpr hkeys
  have hkm : (loadMerge fs).Pairwise fun a b => ¬ keyEq a b :=
    (List.Perm.pairwise_iff hsymm hP).mpr hkeys
  exact ⟨List.eq_of_perm_of_sorted (hperm.trans hP.symm)
           (sorted_keyLT_of_distinct hsort hkl)
           (sorted_keyLT_of_distinct hS hkm), hS, hP⟩

/-- C4 witness: two concrete one-event locale files merge to the unique
time-ordered list, whichever order the files are presented in. -/
theorem loadMerge_deterministic_witness :
    (([[ev1], [ev0]] : List (List Event)).flatten.Pairwise
        (fun a b => ¬ keyEq a b) ∧
      List.Perm [ev0, ev1] ([[ev1], [ev0]] : List (List Event)).flatten ∧
      List.Sorted keyLE [ev0, ev1]) ∧
    [ev0, ev1] = loadMerge [[ev1], [ev0]] :=
  ⟨⟨by decide, by decide, by decide⟩,
   (loadMerge_deterministic [[ev1], [ev0]] [ev0, ev1]
     (by decide) (by decide) (by decide)).1⟩

/-- C5: under the load invariant that the per-tag array has exactly
numTags + 2 entries, every logical id t in [TagALL, numTags) is served from
array position t + 2, with TagALL stored at position 0 and TagStart at
position 1. -/
theorem tagList_indexing (m : DataModel)
    (hn : 0 ≤ m.numTags) (hlen : m.tagList.length = m.numTags.toNat + 2) :
    (∀ t : Int, DataModel.TagALL ≤ t → t < m.numTags →
       m.getTagData t = (m.tagList[(t + 2).toNat]?).map some) ∧
    (∃ a, m.tagList[0]? = some a ∧
       m.getTagData DataModel.TagALL = some (some a)) ∧
    (∃ b, m.tagList[1]? = some b ∧
       m.getTagData DataModel.TagStart = some (some b)) := by
  have hA : DataModel.TagALL = -2 := rfl
  have hgen : ∀ t : Int, DataModel.TagALL ≤ t → t < m.numTags →
      m.getTagData t = (m.tagList[(t + 2).toNat]?).map some := by
    intro t h1 h2
    unfold DataModel.getTagData
    rw [if_neg (by push_neg; exact ⟨h1, h2⟩)]
    rw [hA] at h1
    have hidx : (t - DataModel.TagALL).toNat = (t + 2).toNat := by
      rw [hA]; omega
    rw [hidx]
  refine ⟨hgen, ?_, ?_⟩
  · have hb : 0 < m.tagList.length := by rw [hlen]; omega
    refine ⟨m.tagList[0], List.getElem?_eq_getElem hb, ?_⟩
    rw [hgen DataModel.TagALL (le_refl _) (by rw [hA]; omega)]
    show (m.tagList[(0 : Nat)]?).map some = some (some m.tagList[0])
    rw [List.getElem?_eq_getElem hb]
    rfl
  · have hS : DataModel.TagStart = -1 := rfl
    have hb : 1 < m.tagList.length := by rw [hlen]; omega
    refine ⟨m.tagList[1], List.getElem?_eq_getElem hb, ?_⟩
    rw [hgen DataModel.TagStart (by rw [hA, hS]; omega) (by rw [hS]; omega)]
    show (m.tagList[(1 : Nat)]?).map some = some (some m.tagList[1])
    rw [List.getElem?_eq_getElem hb]
    rfl

/-- C5 witness: on the concrete loaded model M1, TagALL is served from
position 0 of the three-entry (numTags + 2) array. -/
theorem tagList_indexing_witness :
    (0 ≤ M1.numTags ∧ M1.tagList.length = M1.numTags.toNat + 2) ∧
      (∃ a, M1.tagList[0]? = some a ∧
        M1.getTagData DataModel.TagALL = some (some a)) :=
  ⟨⟨by decide, by decide⟩,
   (tagList_indexing M1 (by decide) (by decide)).2.1⟩

/-- C7: a per-tag entry constructed over n locales has an n x n
communication matrix — n rows of n cells — and every cell starts with all
five counters (numComms, numGets, numPuts, numForks, commSize) zero. -/
theorem tagData_init_comm_matrix (n : Nat) :
    (tagData.init n).comms.length = n ∧
    (∀ i : Nat, i < n → ∃ row, (tagData.init n).comms[i]? = some row ∧
       row.length = n ∧ ∀ j : Nat, j < n → row[j]? = some commData.init) ∧
    commData.init.numComms = 0 ∧ commData.init.numGets = 0 ∧
    commData.init.numPuts = 0 ∧ commData.init.numForks = 0 ∧
    commData.init.commSize = 0 := by
  refine ⟨?_, ?_, rfl, rfl, rfl, rfl, rfl⟩
  · show (List.replicate n (List.replicate n commData.init)).length = n
    exact List.length_replicate n _
  · intro i hi
    have hb : i < (List.replicate n (List.replicate n commData.init)).length := by
      rw [List.length_replicate]; exact hi
    refine ⟨List.replicate n commData.init, ?_, List.length_replicate n _, ?_⟩
    · show (List.replicate n (List.replicate n commData.init))[i]? = _
      rw [List.getElem?_eq_getElem hb, List.getElem_replicate]
    · intro j hj
      have hb2 : j < (List.replicate n commData.init).length := by
        rw [List.length_replicate]; exact hj
      rw [List.getElem?_eq_getElem hb2, List.getElem_replicate]

/-- C7 witness: the matrix of a two-locale tag entry has two rows, and row
0 holds two zeroed cells. -/
theorem tagData_init_comm_matrix_witness :
    (tagData.init 2).comms.length = 2 ∧
      (∃ row, (tagData.init 2).comms[0]? = some row ∧ row.length = 2 ∧
        ∀ j : Nat, j < 2 → row[j]? = some commData.init) :=
  ⟨(tagData_init_comm_matrix 2).1,
   (tagData_init_comm_matrix 2).2.1 0 (by decide)⟩

/-- C8: for a model whose merged event list is non-empty, start_clock
returns the clock time of the first event, and when that list is in merge
order this is the minimal clock time — the reference start time of the
load. -/
theorem start_clock_first_event (m : DataModel) (e : Event) (rest : List Event)
    (h : m.theEvents = e :: rest) :
    m.start_clock = some e.clock ∧
    (m.theEvents.Sorted keyLE → ∀ ev ∈ m.theEvents, e.clock ≤ ev.clock) := by
  constructor
  · unfold DataModel.start_clock
    rw [h]
    rfl
  · intro hs ev hev
    rw [h] at hs hev
    rcases List.mem_cons.mp hev with rfl | hmem
    · exact le_refl _
    · have hle : keyLE e ev := ((List.sorted_cons.mp hs).1) ev hmem
      unfold keyLE keyLT keyEq at hle
      omega

/-- C8 witness: on the concrete model M3 the start clock is the clock of
the first merged event. -/
theorem start_clock_first_event_witness :
    M3.theEvents = ev0 :: [ev1] ∧ M3.start_clock = some ev0.clock :=
  ⟨by decide, (start_clock_first_event M3 ev0 [ev1] (by decide)).1⟩

/-- C9: under the invariant that fileTblSize matches the file table length,
fileName returns the stored name for 0 <= fileNo < fileTblSize and the
sentinel string for every other integer, never failing. -/
theorem fileName_range_checked (m : DataModel)
    (hlen : m.fileTblSize = (m.fileTbl.length : Int)) (fileNo : Int) :
    (¬ (0 ≤ fileNo ∧ fileNo < m.fileTblSize) →
       m.fileName fileNo = some "<unknown>") ∧
    ((0 ≤ fileNo ∧ fileNo < m.fileTblSize) →
       ∃ fn, m.fileTbl[fileNo.toNat]? = some fn ∧
         m.fileName fileNo = some fn.name) ∧
    m.fileName fileNo ≠ none := by
  refine ⟨fun h => ?_, fun h => ?_, ?_⟩
  · unfold DataModel.fileName
    rw [if_neg h]
  · unfold DataModel.fileName
    rw [if_pos h]
    rw [hlen] at h
    have hb : fileNo.toNat < m.fileTbl.length := by omega
    rw [List.getElem?_eq_getElem hb]
    exact ⟨m.fileTbl[fileNo.toNat], rfl, rfl⟩
  · unfold DataModel.fileName
    by_cases hc : 0 ≤ fileNo ∧ fileNo < m.fileTblSize
    · rw [if_pos hc]
      rw [hlen] at hc
      have hb : fileNo.toNat < m.fileTbl.length := by omega
      rw [List.getElem?_eq_getElem hb]
      simp
    · rw [if_neg hc]
      simp

/-- C9 witness: on the concrete model M4 an out-of-range id yields the
sentinel unknown-name string. -/
theorem fileName_range_checked_witness :
    M4.fileTblSize = (M4.fileTbl.length : Int) ∧
      M4.fileName (-3) = some "<unknown>" :=
  ⟨by decide, (fileName_range_checked M4 (by decide) (-3)).1 (by decide)⟩

/-- C10: getUTagData serves TagALL and TagStart from positions 0 and 1 of
the folded tag array, unconditionally: the answers are unchanged under any
replacement of the literal-occurrence list and of the folding flag. -/
theorem getUTagData_sentinels (m : DataModel) (hlen : 2 ≤ m.tagList.length) :
    (∃ a, m.tagList[0]? = some a ∧
       m.getUTagData DataModel.TagALL = some (some a)) ∧
    (∃ b, m.tagList[1]? = some b ∧
       m.getUTagData DataModel.TagStart = some (some b)) ∧
    (∀ ul : List tagData, ∀ u : Bool,
       DataModel.getUTagData { m with utagList := ul, uniqueTags := u }
           DataModel.TagALL = m.getUTagData DataModel.TagALL ∧
       DataModel.getUTagData { m with utagList := ul, uniqueTags := u }
           DataModel.TagStart = m.getUTagData DataModel.TagStart) := by
  have hb0 : 0 < m.tagList.length := by omega
  have hb1 : 1 < m.tagList.length := by omega
  refine ⟨⟨m.tagList[0], List.getElem?_eq_getElem hb0, ?_⟩,
          ⟨m.tagList[1], List.getElem?_eq_getElem hb1, ?_⟩, ?_⟩
  · rw [getUTagData_at_TagALL m, List.getElem?_eq_getElem hb0]
    rfl
  · rw [getUTagData_at_TagStart m, List.getElem?_eq_getElem hb1]
    rfl
  · intro ul u
    constructor
    · rw [getUTagData_at_TagALL { m with utagList := ul, uniqueTags := u },
          getUTagData_at_TagALL m]
    · rw [getUTagData_at_TagStart { m with utagList := ul, uniqueTags := u },
          getUTagData_at_TagStart m]

/-- C10 witness: on the concrete loaded model M1, TagALL is answered from
position 0 of the folded array. -/
theorem getUTagData_sentinels_witness :
    2 ≤ M1.tagList.length ∧
      (∃ a, M1.tagList[0]? = some a ∧
        M1.getUTagData DataModel.TagALL = some (some a)) :=
  ⟨by decide, (getUTagData_sentinels M1 (by decide)).1⟩

end ChplVis
